import Mathlib

/-!
Verification of the InterCom jitter-buffer engine
(`src/bufferRegister.py` and `src/buffer2Register.py`, class `Buffering`)
against its natural-language specification.

Shallow embedding conventions:
* Python byte strings are `List ℕ` (each entry a byte value `< 256`);
* numpy `int16` sample blocks are `List ℤ` whose entries lie in
  `[-32768, 32768)`;
* Python `int` is `ℤ`; Python `%` on integers is `Int.emod`
  (both give a result with the sign of the divisor);
* fallible Python code (raising `struct.error` / `ValueError` /
  socket errors) is modelled with `Except`;
* the only floats in the engine are `playback_speed` and the five
  controller constants 1.05, 0.95, 0.80, 0.60, 1.0.  They are modelled
  exactly as rationals with denominator 100, represented by their
  numerator (`105`, `95`, `80`, `60`, `100 : ℕ`), so
  `int(frames_per_chunk * playback_speed)` — Python `int()` truncates,
  and the operand is nonnegative — becomes
  `frames_per_chunk * playback_speed / 100` with natural-number
  (flooring) division.  This idealizes the source's binary floating
  point by exact decimal arithmetic.
-/

namespace InterCom

/-- `struct.error` raised by `struct.pack("!H", n)` when `n` is outside
the 16-bit unsigned range. -/
inductive PackError where
  | seqOutOfRange
deriving DecidableEq

/-- Decode failure of `Buffering.unpack`: either `struct.unpack("!H", b[:2])`
fails because fewer than 2 bytes are available (`struct.error`), or
`np.frombuffer(..., dtype=np.int16)` fails because the payload length is
odd (`ValueError`).  The spec names this abstract error kind
`MalformedPacket`. -/
inductive MalformedPacket where
  | tooShort
  | oddPayload
deriving DecidableEq

/-- A fault in the transmit half of the driver callback: packing the
outgoing chunk raised, or `self.send` raised (the spec's `TransportError`). -/
inductive Fault where
  | packFault
  | sendFault
deriving DecidableEq

/-- `Buffering.CHUNK_NUMBERS = 1 << 15`: the modulus of the local
production counter `self.chunk_number`. -/
def CHUNK_NUMBERS : ℤ := 32768

/-- Little-endian two-byte encoding of one `int16` sample, as produced by
`numpy.ndarray.tobytes()` on a little-endian platform: the sample is
reduced to its 16-bit two's-complement representative and split into a
low byte and a high byte. -/
def toLE16 (v : ℤ) : List ℕ :=
  [(v.emod 65536).toNat % 256, (v.emod 65536).toNat / 256]

/-- Reading one `int16` back from two little-endian bytes, as
`np.frombuffer(b, dtype=np.int16)` does. -/
def fromLE16 (b0 b1 : ℕ) : ℤ :=
  if b0 + 256 * b1 < 32768 then ((b0 + 256 * b1 : ℕ) : ℤ)
  else ((b0 + 256 * b1 : ℕ) : ℤ) - 65536

/-- `np.frombuffer(b, dtype=np.int16)` on a byte string of even length:
consecutive byte pairs become samples. -/
def decodeSamples : List ℕ → List ℤ
  | b0 :: b1 :: rest => fromLE16 b0 b1 :: decodeSamples rest
  | _ => []

/-- `struct.pack("!H", n)` for `0 ≤ n < 65536`: big-endian, high byte
first. -/
def seqBytesBE (n : ℕ) : List ℕ :=
  [n / 256, n % 256]

/-- `Buffering.pack(chunk_number, chunk)`:
`struct.pack("!H", chunk_number) + chunk.tobytes()`.
`struct.pack` raises `struct.error` when the sequence number is outside
`[0, 65536)`; otherwise the packet is the 2-byte big-endian sequence
number followed by the raw sample bytes. -/
def pack (chunk_number : ℤ) (chunk : List ℤ) : Except PackError (List ℕ) :=
  if 0 ≤ chunk_number ∧ chunk_number < 65536 then
    .ok (seqBytesBE chunk_number.toNat ++ chunk.flatMap toLE16)
  else .error .seqOutOfRange

/-- `Buffering.unpack(packed_chunk)`:
`struct.unpack("!H", packed_chunk[:2])` (fails when fewer than 2 bytes
are present), then `np.frombuffer(packed_chunk[2:], dtype=np.int16)`
(fails when the payload length is odd). -/
def unpack (packed : List ℕ) : Except MalformedPacket (ℤ × List ℤ) :=
  match packed with
  | b0 :: b1 :: rest =>
    if rest.length % 2 = 0 then
      .ok (((256 * b0 + b1 : ℕ) : ℤ), decodeSamples rest)
    else .error .oddPayload
  | _ => .error .tooShort

lemma toLE16_length (v : ℤ) : (toLE16 v).length = 2 := rfl

lemma flatMap_toLE16_length (samples : List ℤ) :
    (samples.flatMap toLE16).length = 2 * samples.length := by
  induction samples with
  | nil => rfl
  | cons v tl ih =>
    simp [List.flatMap_cons, toLE16_length, ih]
    ring

lemma fromLE16_toLE16 (v : ℤ) (h1 : -32768 ≤ v) (h2 : v < 32768) :
    fromLE16 ((v.emod 65536).toNat % 256) ((v.emod 65536).toNat / 256) = v := by
  have h0 : 0 ≤ v.emod 65536 := Int.emod_nonneg v (by norm_num)
  have hlt : v.emod 65536 < 65536 := Int.emod_lt_of_pos v (by norm_num)
  have hcase : v.emod 65536 = v ∨ v.emod 65536 = v + 65536 := by
    rcases le_or_lt 0 v with hv | hv
    · left; exact Int.emod_eq_of_lt hv (by omega)
    · right
      have hshift : (v + 65536 * 1).emod 65536 = v.emod 65536 :=
        Int.add_mul_emod_self_left v 65536 1
      have h65 : (v + 65536 * 1).emod 65536 = v + 65536 * 1 :=
        Int.emod_eq_of_lt (by omega) (by omega)
      omega
  unfold fromLE16
  split_ifs with h <;> omega

lemma decodeSamples_flatMap (samples : List ℤ)
    (h : ∀ v ∈ samples, -32768 ≤ v ∧ v < 32768) :
    decodeSamples (samples.flatMap toLE16) = samples := by
  induction samples with
  | nil => rfl
  | cons v tl ih =>
    have hv := h v (List.mem_cons_self v tl)
    have htl : ∀ w ∈ tl, -32768 ≤ w ∧ w < 32768 := by
      intro w hw; exact h w (List.mem_cons_of_mem v hw)
    rw [List.flatMap_cons, toLE16]
    show decodeSamples ((v.emod 65536).toNat % 256 ::
      (v.emod 65536).toNat / 256 :: tl.flatMap toLE16) = v :: tl
    rw [decodeSamples, ih htl, fromLE16_toLE16 v hv.1 hv.2]

/-- C1: Codec round-trip.  For every sequence number in the 16-bit wire
range `[0, 65536)` and every block of signed 16-bit samples,
`Buffering.pack` succeeds and `Buffering.unpack` recovers exactly the
sequence number and the sample block. -/
theorem codec_round_trip (seq : ℤ) (samples : List ℤ)
    (h1 : 0 ≤ seq) (h2 : seq < 65536)
    (h3 : ∀ v ∈ samples, -32768 ≤ v ∧ v < 32768) :
    ∃ bytes, pack seq samples = .ok bytes ∧ unpack bytes = .ok (seq, samples) := by
  refine ⟨seqBytesBE seq.toNat ++ samples.flatMap toLE16, ?_, ?_⟩
  · rw [pack, if_pos ⟨h1, h2⟩]
  · have hlen : (samples.flatMap toLE16).length % 2 = 0 := by
      rw [flatMap_toLE16_length]; omega
    simp only [seqBytesBE, List.cons_append, List.nil_append, unpack,
      if_pos hlen, decodeSamples_flatMap samples h3]
    have hn : (256 * (seq.toNat / 256) + seq.toNat % 256 : ℕ) = seq.toNat := by
      omega
    rw [hn, Int.toNat_of_nonneg h1]

/-- Witness for C1 at `seq = 100`, `samples = [1, -1]`. -/
theorem codec_round_trip_witness :
    ((0 : ℤ) ≤ 100 ∧ (100 : ℤ) < 65536 ∧
      ∀ v ∈ ([1, -1] : List ℤ), -32768 ≤ v ∧ v < 32768) ∧
    ∃ bytes, pack 100 [1, -1] = .ok bytes ∧ unpack bytes = .ok (100, [1, -1]) :=
  ⟨by decide, codec_round_trip 100 [1, -1] (by decide) (by decide) (by decide)⟩

/-- C7: Malformed-input rejection.  `Buffering.unpack` fails with a
`MalformedPacket` error — rather than crashing or returning a default —
exactly on the inputs that are shorter than 2 bytes or whose payload
after the 2-byte prefix has odd length; in particular a 1-byte input is
rejected with the too-short error. -/
theorem unpack_malformed_rejection (packed : List ℕ) :
    ((∃ e, unpack packed = .error e) ↔
      (packed.length < 2 ∨ (packed.length - 2) % 2 ≠ 0)) ∧
    unpack [0] = .error MalformedPacket.tooShort := by
  refine ⟨?_, rfl⟩
  match packed with
  | [] => simp [unpack]
  | [b0] => simp [unpack]
  | b0 :: b1 :: rest =>
    by_cases h : rest.length % 2 = 0
    · simp only [unpack, if_pos h, List.length_cons]
      constructor
      · rintro ⟨e, he⟩
        exact Except.noConfusion he
      · intro hc
        exact absurd hc (by omega)
    · simp only [unpack, if_neg h, List.length_cons]
      constructor
      · intro _
        omega
      · intro _
        exact ⟨.oddPayload, rfl⟩

/-- C10: `struct.pack("!H", seq)` inside `Buffering.pack` raises for
every sequence number outside `[0, 65536)` (no silent truncation or
wrap into the 16-bit field) and succeeds for every sequence number
inside that range. -/
theorem pack_seq_range (seq : ℤ) (chunk : List ℤ) :
    ((∃ bytes, pack seq chunk = .ok bytes) ↔ (0 ≤ seq ∧ seq < 65536)) ∧
    ((∃ e, pack seq chunk = .error e) ↔ (seq < 0 ∨ 65536 ≤ seq)) := by
  unfold pack
  split_ifs with h
  · refine ⟨⟨fun _ => h, fun _ => ⟨_, rfl⟩⟩, ?_, ?_⟩
    · rintro ⟨e, he⟩
      exact he.elim
    · intro hc
      exact absurd hc (by omega)
  · rw [not_and_or, not_le, not_lt] at h
    refine ⟨⟨?_, fun hc => absurd hc (by omega)⟩, fun _ => h, fun _ => ⟨_, rfl⟩⟩
    rintro ⟨bytes, hb⟩
    exact hb.elim

/-! ## The jitter ring buffer state

One record collects the per-session fields of class `Buffering` that the
claims are about, together with the two configuration values computed in
`__init__` and the relevant `minimal` configuration
(`frames_per_chunk`).  `last_received_seq` is a ghost field recording
the last sequence number observed by the receive loop; the Python class
has no such attribute, which is exactly what claim C5 is about. -/

structure BufState where
  chunks_to_buffer : ℤ
  cells_in_buffer : ℤ
  frames_per_chunk : ℕ
  chunk_number : ℤ
  played_chunk_number : ℤ
  playback_speed : ℕ
  ring : List (List ℤ)
  last_received_seq : Option ℤ
deriving DecidableEq

/-- `Buffering.__init__`: `cells_in_buffer = chunks_to_buffer * 2`, both
counters start at 0, `playback_speed = 1.0`, and every buffer cell is
pre-filled with the zero chunk.  `chunks_to_buffer` is
`ceil(buffering_time / 1000 / chunk_time)` with `buffering_time` coerced
to at least 1 ms, hence at least 1; it is passed in here as a
parameter. -/
def initState (ctb : ℤ) (zero_chunk : List ℤ) (frames : ℕ) : BufState :=
  { chunks_to_buffer := ctb
    cells_in_buffer := ctb * 2
    frames_per_chunk := frames
    chunk_number := 0
    played_chunk_number := 0
    playback_speed := 100
    ring := List.replicate (ctb * 2).toNat zero_chunk
    last_received_seq := none }

/-- The buffer-occupancy expression
`(self.chunk_number - self.played_chunk_number) % self.cells_in_buffer`
appearing verbatim in `log_buffer_status` and in
`adjust_playback_speed`. -/
def occupancy (s : BufState) : ℤ :=
  (s.chunk_number - s.played_chunk_number).emod s.cells_in_buffer

/-- `Buffering.buffer_chunk`:
`self._buffer[chunk_number % self.cells_in_buffer] = chunk`. -/
def buffer_chunk (s : BufState) (seq : ℤ) (chunk : List ℤ) : BufState :=
  { s with ring := s.ring.set (seq.emod s.cells_in_buffer).toNat chunk }

/-- `Buffering.receive_and_buffer`: receive a datagram, `unpack` it and
`buffer_chunk` it, taking the already-decoded pair as input.  The ghost
field `last_received_seq` records the sequence number this writer-side
loop just observed. -/
def receive_and_buffer (s : BufState) (seq : ℤ) (chunk : List ℤ) : BufState :=
  { buffer_chunk s seq chunk with last_received_seq := some seq }

/-- `Buffering.unbuffer_next_chunk`:
`self._buffer[self.played_chunk_number % self.cells_in_buffer]`. -/
def unbuffer_next_chunk (s : BufState) : List ℤ :=
  s.ring.getD (s.played_chunk_number.emod s.cells_in_buffer).toNat []

/-- `Buffering.adjust_playback_speed` (buffer2Register.py): sets
`playback_speed` from the occupancy by the `if`/`elif` chain.  The float
constants 1.05, 0.95, 0.80, 0.60, 1.0 are represented in hundredths as
105, 95, 80, 60, 100. -/
def adjust_playback_speed (s : BufState) : BufState :=
  let chunks_in_buffer := (s.chunk_number - s.played_chunk_number).emod s.cells_in_buffer
  { s with playback_speed :=
      if chunks_in_buffer ≥ s.chunks_to_buffer - 2 then 105
      else if chunks_in_buffer = 3 then 95
      else if chunks_in_buffer = 2 then 80
      else if chunks_in_buffer = 1 then 60
      else 100 }

/-- numpy slice assignment `dst[:n] = src[:n]` on equal-length 1-d
arrays: both slices are clamped to the array length. -/
def sliceAssign (dst src : List ℤ) (n : ℕ) : List ℤ :=
  src.take (min n dst.length) ++ dst.drop (min n dst.length)

/-- numpy slice assignment `dst[n:] = 0`. -/
def zeroFrom (dst : List ℤ) (n : ℕ) : List ℤ :=
  dst.take n ++ List.replicate (dst.length - n) 0

/-- `Buffering.play_chunk` (buffer2Register.py): advance
`played_chunk_number` by one cell, compute
`adjusted_frames = int(frames_per_chunk * playback_speed)` (Python
`int()` truncates; the value is nonnegative for every speed the
controller produces, so under the hundredths representation this is the
flooring division by 100), copy
`DAC[:adjusted_frames] = chunk[:adjusted_frames]` and zero-fill
`DAC[adjusted_frames:]` when `adjusted_frames < frames_per_chunk`.
The chunk is modelled per frame row, so the reshape to
`(frames_per_chunk, NUMBER_OF_CHANNELS)` is the identity. -/
def play_chunk (s : BufState) (dac chunk : List ℤ) : BufState × List ℤ :=
  let s' := { s with
    played_chunk_number := (s.played_chunk_number + 1).emod s.cells_in_buffer }
  let adjusted := s.frames_per_chunk * s.playback_speed / 100
  let dac1 := sliceAssign dac chunk adjusted
  let dac2 := if adjusted < s.frames_per_chunk then zeroFrom dac1 adjusted else dac1
  (s', dac2)

/-- `Buffering._record_IO_and_play` (buffer2Register.py): increment the
local production counter mod `CHUNK_NUMBERS`, `pack` the captured frame
with the new counter value, `send` it, then adjust the playback speed,
take the next chunk out of the ring and play it.  The two fallible
exterior actions are modelled explicitly: a `pack` failure or a `send`
failure (`sendOk = false`) raises, so — as in the Python source, which
wraps none of this in a `try` block — the remaining statements of the
callback body do not run. -/
def record_IO_and_play (s : BufState) (adc dac : List ℤ) (sendOk : Bool) :
    BufState × Except Fault (List ℤ) :=
  let c : ℤ := (s.chunk_number + 1).emod CHUNK_NUMBERS
  let s1 := { s with chunk_number := c }
  match pack c adc with
  | .error _ => (s1, .error .packFault)
  | .ok _ =>
    if sendOk then
      let s2 := adjust_playback_speed s1
      let res := play_chunk s2 dac (unbuffer_next_chunk s2)
      (res.1, .ok res.2)
    else (s1, .error .sendFault)

/-- One event of the two concurrently scheduled activities:
a driver callback (`_record_IO_and_play`), a receive-loop iteration
(`receive_and_buffer`), or the one-time seeding assignment
`played_chunk_number = (first_received - chunks_to_buffer) % cells_in_buffer`
performed by `run` on the first received datagram. -/
inductive Step where
  | record (adc dac : List ℤ) (sendOk : Bool)
  | receive (seq : ℤ) (chunk : List ℤ)
  | seed (seq : ℤ) (chunk : List ℤ)
deriving DecidableEq

def applyStep (s : BufState) : Step → BufState
  | .record adc dac sendOk => (record_IO_and_play s adc dac sendOk).1
  | .receive seq chunk => receive_and_buffer s seq chunk
  | .seed seq chunk =>
    let s1 := receive_and_buffer s seq chunk
    { s1 with played_chunk_number :=
        (seq - s1.chunks_to_buffer).emod s1.cells_in_buffer }

def runSteps (s : BufState) (steps : List Step) : BufState :=
  steps.foldl applyStep s

/-- Number of driver callbacks in a trace. -/
def countRecords : List Step → ℕ
  | [] => 0
  | .record _ _ _ :: rest => countRecords rest + 1
  | .receive _ _ :: rest => countRecords rest
  | .seed _ _ :: rest => countRecords rest

lemma pack_in_range (c : ℤ) (hc0 : 0 ≤ c) (hc : c < 65536) (adc : List ℤ) :
    pack c adc = .ok (seqBytesBE c.toNat ++ adc.flatMap toLE16) := by
  rw [pack, if_pos ⟨hc0, hc⟩]

lemma emod_CHUNK_NUMBERS_nonneg (c : ℤ) : 0 ≤ c.emod CHUNK_NUMBERS :=
  Int.emod_nonneg c (by norm_num [CHUNK_NUMBERS])

lemma emod_CHUNK_NUMBERS_lt (c : ℤ) : c.emod CHUNK_NUMBERS < CHUNK_NUMBERS :=
  Int.emod_lt_of_pos c (by norm_num [CHUNK_NUMBERS])

/-- The transmit half of the callback never hits the `pack` failure
branch: the freshly incremented counter is in `[0, 32768) ⊆ [0, 65536)`.
This resolves the `match` in `record_IO_and_play`. -/
lemma record_IO_and_play_eq (s : BufState) (adc dac : List ℤ) (sendOk : Bool) :
    record_IO_and_play s adc dac sendOk =
      (if sendOk then
        ((play_chunk
            (adjust_playback_speed
              { s with chunk_number := (s.chunk_number + 1).emod CHUNK_NUMBERS })
            dac
            (unbuffer_next_chunk
              (adjust_playback_speed
                { s with chunk_number := (s.chunk_number + 1).emod CHUNK_NUMBERS }))).1,
          .ok (play_chunk
            (adjust_playback_speed
              { s with chunk_number := (s.chunk_number + 1).emod CHUNK_NUMBERS })
            dac
            (unbuffer_next_chunk
              (adjust_playback_speed
                { s with chunk_number := (s.chunk_number + 1).emod CHUNK_NUMBERS }))).2)
      else
        ({ s with chunk_number := (s.chunk_number + 1).emod CHUNK_NUMBERS },
          .error .sendFault)) := by
  have h1 : (s.chunk_number + 1).emod CHUNK_NUMBERS < 65536 :=
    lt_trans (emod_CHUNK_NUMBERS_lt _) (by norm_num [CHUNK_NUMBERS])
  rw [record_IO_and_play,
    pack_in_range _ (emod_CHUNK_NUMBERS_nonneg _) h1]

lemma receive_and_buffer_proj (s : BufState) (seq : ℤ) (chunk : List ℤ) :
    (receive_and_buffer s seq chunk).chunks_to_buffer = s.chunks_to_buffer ∧
    (receive_and_buffer s seq chunk).cells_in_buffer = s.cells_in_buffer ∧
    (receive_and_buffer s seq chunk).frames_per_chunk = s.frames_per_chunk ∧
    (receive_and_buffer s seq chunk).chunk_number = s.chunk_number ∧
    (receive_and_buffer s seq chunk).played_chunk_number = s.played_chunk_number :=
  ⟨rfl, rfl, rfl, rfl, rfl⟩

lemma applyStep_config (s : BufState) (st : Step) :
    (applyStep s st).chunks_to_buffer = s.chunks_to_buffer ∧
    (applyStep s st).cells_in_buffer = s.cells_in_buffer ∧
    (applyStep s st).frames_per_chunk = s.frames_per_chunk := by
  cases st with
  | record adc dac sendOk =>
    rw [applyStep, record_IO_and_play_eq]
    cases sendOk <;>
      simp [play_chunk, adjust_playback_speed, unbuffer_next_chunk]
  | receive seq chunk => exact ⟨rfl, rfl, rfl⟩
  | seed seq chunk => exact ⟨rfl, rfl, rfl⟩

lemma runSteps_config (steps : List Step) :
    ∀ s : BufState,
      (runSteps s steps).chunks_to_buffer = s.chunks_to_buffer ∧
      (runSteps s steps).cells_in_buffer = s.cells_in_buffer ∧
      (runSteps s steps).frames_per_chunk = s.frames_per_chunk := by
  induction steps with
  | nil => exact fun s => ⟨rfl, rfl, rfl⟩
  | cons st rest ih =>
    intro s
    have h1 := applyStep_config s st
    have h2 := ih (applyStep s st)
    exact ⟨h2.1.trans h1.1, h2.2.1.trans h1.2.1, h2.2.2.trans h1.2.2⟩

lemma applyStep_chunk_number_record (s : BufState) (adc dac : List ℤ)
    (sendOk : Bool) :
    (applyStep s (.record adc dac sendOk)).chunk_number =
      (s.chunk_number + 1).emod CHUNK_NUMBERS := by
  rw [applyStep, record_IO_and_play_eq]
  cases sendOk <;>
    simp [play_chunk, adjust_playback_speed, unbuffer_next_chunk]

/-- Along any trace, the local production counter is the number of
driver callbacks so far, reduced mod `CHUNK_NUMBERS`; the receive-loop
events do not touch it. -/
lemma runSteps_chunk_number (steps : List Step) :
    ∀ s : BufState, s.chunk_number.emod CHUNK_NUMBERS = s.chunk_number →
      (runSteps s steps).chunk_number =
        (s.chunk_number + countRecords steps).emod CHUNK_NUMBERS := by
  induction steps with
  | nil =>
    intro s hs
    simpa [runSteps, countRecords] using hs.symm
  | cons st rest ih =>
    intro s hs
    have hstep : runSteps s (st :: rest) = runSteps (applyStep s st) rest := rfl
    cases st with
    | record adc dac sendOk =>
      have hc := applyStep_chunk_number_record s adc dac sendOk
      have hred : ((applyStep s (.record adc dac sendOk)).chunk_number).emod
          CHUNK_NUMBERS = (applyStep s (.record adc dac sendOk)).chunk_number := by
        rw [hc]
        exact Int.emod_emod_of_dvd _ dvd_rfl
      have := ih (applyStep s (.record adc dac sendOk)) hred
      rw [hstep, this, hc, countRecords]
      push_cast
      have hrw : s.chunk_number + ((countRecords rest : ℤ) + 1) =
          (s.chunk_number + 1) + (countRecords rest : ℤ) := by ring
      rw [hrw]
      show ((s.chunk_number + 1) % CHUNK_NUMBERS + (countRecords rest : ℤ))
          % CHUNK_NUMBERS =
        (s.chunk_number + 1 + (countRecords rest : ℤ)) % CHUNK_NUMBERS
      rw [Int.add_emod (s.chunk_number + 1),
        Int.add_emod ((s.chunk_number + 1) % CHUNK_NUMBERS),
        Int.emod_emod_of_dvd _ dvd_rfl]
    | receive seq chunk =>
      have hc : (applyStep s (.receive seq chunk)).chunk_number = s.chunk_number := rfl
      have := ih (applyStep s (.receive seq chunk)) (by rw [hc]; exact hs)
      rw [hstep, this, hc, countRecords]
    | seed seq chunk =>
      have hc : (applyStep s (.seed seq chunk)).chunk_number = s.chunk_number := rfl
      have := ih (applyStep s (.seed seq chunk)) (by rw [hc]; exact hs)
      rw [hstep, this, hc, countRecords]

lemma countRecords_replicate (n : ℕ) (adc dac : List ℤ) (sendOk : Bool) :
    countRecords (List.replicate n (Step.record adc dac sendOk)) = n := by
  induction n with
  | zero => rfl
  | succ k ih => simp [List.replicate_succ, countRecords, ih]

/-- C2: Occupancy range invariant.  Along every trace of driver
callbacks, receive-loop iterations and the seeding assignment —
including traces long enough for the local counter to wrap — the
occupancy `(chunk_number - played_chunk_number) % cells_in_buffer` stays
in `[0, cells_in_buffer)`.  (`chunks_to_buffer ≥ 1` holds for every
construction, since `buffering_time` is coerced to at least 1 ms.) -/
theorem occupancy_range (ctb : ℤ) (zero_chunk : List ℤ) (frames : ℕ)
    (steps : List Step) (h : 1 ≤ ctb) :
    0 ≤ occupancy (runSteps (initState ctb zero_chunk frames) steps) ∧
    occupancy (runSteps (initState ctb zero_chunk frames) steps) <
      (runSteps (initState ctb zero_chunk frames) steps).cells_in_buffer := by
  have hc : (runSteps (initState ctb zero_chunk frames) steps).cells_in_buffer
      = ctb * 2 :=
    (runSteps_config steps (initState ctb zero_chunk frames)).2.1
  constructor
  · rw [occupancy, hc]
    exact Int.emod_nonneg _ (by omega)
  · rw [occupancy, hc]
    exact Int.emod_lt_of_pos _ (by omega)

/-- Witness for C2 with `chunks_to_buffer = 1` and a two-event trace. -/
theorem occupancy_range_witness :
    (1 : ℤ) ≤ 1 ∧
    (0 ≤ occupancy (runSteps (initState 1 [] 1)
        [Step.record [] [] true, Step.receive 3 []]) ∧
      occupancy (runSteps (initState 1 [] 1)
        [Step.record [] [] true, Step.receive 3 []]) <
      (runSteps (initState 1 [] 1)
        [Step.record [] [] true, Step.receive 3 []]).cells_in_buffer) :=
  ⟨by decide,
    occupancy_range 1 [] 1 [Step.record [] [] true, Step.receive 3 []] (by decide)⟩

/-- Modelled from the spec's Rate Controller table (§4.3), rows tried
top to bottom, fill ratios in hundredths: `≥ target − 2 ↦ 1.05`,
`= 3 ↦ 0.95`, `= 2 ↦ 0.80`, `= 1 ↦ 0.60`, otherwise `1.00`. -/
def rate_table_spec (target o : ℤ) : ℕ :=
  if o ≥ target - 2 then 105
  else if o = 3 then 95
  else if o = 2 then 80
  else if o = 1 then 60
  else 100

/-- C3: Rate Controller table.  For every state (hence every occupancy
value and configured target), `adjust_playback_speed` computes exactly
the spec's priority-ordered table applied to
`target = chunks_to_buffer` and `o = occupancy`, and the result is
always one of the five ratios 1.05, 0.95, 0.80, 0.60, 1.00 — one ratio
per input even where the `≥ target − 2` row overlaps the `= 3`, `= 2`,
`= 1` rows (the first row wins, as in the `if`/`elif` chain). -/
theorem rate_controller_table (s : BufState) :
    (adjust_playback_speed s).playback_speed =
      rate_table_spec s.chunks_to_buffer (occupancy s) ∧
    ((adjust_playback_speed s).playback_speed = 105 ∨
      (adjust_playback_speed s).playback_speed = 95 ∨
      (adjust_playback_speed s).playback_speed = 80 ∨
      (adjust_playback_speed s).playback_speed = 60 ∨
      (adjust_playback_speed s).playback_speed = 100) := by
  constructor
  · rfl
  · simp only [adjust_playback_speed]
    split_ifs <;> simp

/-- C4: Seeding.  The seeding event of `run` sets `played_chunk_number`
to `(first_received_sequence - chunks_to_buffer) % cells_in_buffer`; in
particular with `chunks_to_buffer = 5`, `cells_in_buffer = 10` and
first received sequence number 100, the seeded play cursor is 5. -/
theorem seeding_play_cursor (s : BufState) (seq : ℤ) (chunk : List ℤ) :
    (applyStep s (Step.seed seq chunk)).played_chunk_number =
      (seq - s.chunks_to_buffer).emod s.cells_in_buffer ∧
    (applyStep (initState 5 [] 2) (Step.seed 100 [])).played_chunk_number = 5 :=
  ⟨rfl, by decide⟩

/-- C5 counterexample: in the state reached from a fresh buffer by one
receive-loop iteration carrying sequence number 7 (and no driver
callback), the last sequence number observed by the writer side is 7,
yet `occupancy` — which reads the local capture counter
`chunk_number`, still 0 — returns `(0 - 0) % 10 = 0` and not
`(7 - 0) % 10 = 7`.  So occupancy is not computed from the last
sequence number observed by the writer side. -/
theorem occupancy_source_cx :
    (runSteps (initState 5 [] 2) [Step.receive 7 []]).last_received_seq = some 7 ∧
    occupancy (runSteps (initState 5 [] 2) [Step.receive 7 []]) = 0 ∧
    ((7 : ℤ) -
        (runSteps (initState 5 [] 2) [Step.receive 7 []]).played_chunk_number).emod
      (runSteps (initState 5 [] 2) [Step.receive 7 []]).cells_in_buffer = 7 ∧
    (0 : ℤ) ≠ 7 := by decide

/-- C5 amended: `occupancy` is the cursor difference
`(chunk_number − played_chunk_number) mod cells_in_buffer` — not a scan
of the ring — where `chunk_number` is the *local capture/send counter*:
along any trace it equals the number of driver callbacks so far, mod
`CHUNK_NUMBERS`, and is never influenced by received sequence
numbers. -/
theorem occupancy_source_amended (ctb : ℤ) (zero_chunk : List ℤ) (frames : ℕ)
    (steps : List Step) :
    occupancy (runSteps (initState ctb zero_chunk frames) steps) =
      ((runSteps (initState ctb zero_chunk frames) steps).chunk_number -
        (runSteps (initState ctb zero_chunk frames) steps).played_chunk_number).emod
        (runSteps (initState ctb zero_chunk frames) steps).cells_in_buffer ∧
    (runSteps (initState ctb zero_chunk frames) steps).chunk_number =
      (countRecords steps : ℤ).emod CHUNK_NUMBERS := by
  refine ⟨rfl, ?_⟩
  have h := runSteps_chunk_number steps (initState ctb zero_chunk frames) rfl
  simpa [initState] using h

/-- C9 counterexample: the counter transmitted on the wire wraps at
`CHUNK_NUMBERS = 1 << 15 = 32768`, not at 65536.  After 32767 driver
callbacks the counter is 32767; the next callback transmits 0, whereas
a 65536-modulus counter would transmit 32768. -/
theorem wire_modulus_cx :
    (runSteps (initState 1 [] 1)
        (List.replicate 32767 (Step.record [] [] true))).chunk_number = 32767 ∧
    (applyStep (runSteps (initState 1 [] 1)
        (List.replicate 32767 (Step.record [] [] true)))
      (Step.record [] [] true)).chunk_number = 0 ∧
    ((32767 : ℤ) + 1).emod 65536 = 32768 ∧ (0 : ℤ) ≠ 32768 := by
  have h1 : (runSteps (initState 1 [] 1)
      (List.replicate 32767 (Step.record [] [] true))).chunk_number = 32767 := by
    rw [runSteps_chunk_number _ _ (by decide), countRecords_replicate]
    decide
  refine ⟨h1, ?_, by decide, by decide⟩
  rw [applyStep_chunk_number_record, h1]
  decide

/-- C9 amended: the transmitted sequence number is the local counter
incremented once per captured chunk and reduced mod
`CHUNK_NUMBERS = 1 << 15 = 32768`: along any trace it stays in
`[0, 32768)` (so 65535 is never transmitted and the 16-bit wire field is
only half used), each callback maps counter `c` to `(c + 1) % 32768`,
and in particular 32767 is followed by 0. -/
theorem wire_modulus_amended (ctb : ℤ) (zero_chunk : List ℤ) (frames : ℕ)
    (steps : List Step) (adc dac : List ℤ) (sendOk : Bool) :
    (0 ≤ (runSteps (initState ctb zero_chunk frames) steps).chunk_number ∧
      (runSteps (initState ctb zero_chunk frames) steps).chunk_number <
        CHUNK_NUMBERS) ∧
    (applyStep (runSteps (initState ctb zero_chunk frames) steps)
        (Step.record adc dac sendOk)).chunk_number =
      ((runSteps (initState ctb zero_chunk frames) steps).chunk_number + 1).emod
        CHUNK_NUMBERS ∧
    (applyStep { initState 1 [] 1 with chunk_number := 32767 }
        (Step.record [] [] true)).chunk_number = 0 := by
  refine ⟨?_, applyStep_chunk_number_record _ _ _ _, by decide⟩
  have h := runSteps_chunk_number steps (initState ctb zero_chunk frames) rfl
  rw [h]
  exact ⟨emod_CHUNK_NUMBERS_nonneg _, emod_CHUNK_NUMBERS_lt _⟩

/-- C8 counterexample: in `_record_IO_and_play` nothing guards the
`pack`/`send` pair, so when `send` raises, the callback aborts before
step 4: starting from a fresh state, a callback with a failing send
leaves `played_chunk_number` at 0 and produces no DAC frame, while a
completed step 4 would have advanced the play cursor to
`(0 + 1) % 10 = 1`. -/
theorem transmit_fault_cx :
    (record_IO_and_play (initState 5 [] 2) [1, 2] [7, 7] false).2 =
      .error Fault.sendFault ∧
    (record_IO_and_play (initState 5 [] 2) [1, 2] [7, 7] false).1.played_chunk_number
      = 0 ∧
    ((initState 5 [] 2).played_chunk_number + 1).emod
      (initState 5 [] 2).cells_in_buffer = 1 ∧
    (0 : ℤ) ≠ 1 := by
  refine ⟨?_, ?_, by decide, by decide⟩ <;>
    rw [record_IO_and_play_eq] <;> rfl

/-- C8 amended: the read-next-and-render step of the callback runs only
when packing and sending the outgoing packet succeed.  A send fault
aborts the callback for that period — the play cursor does not advance
and no output frame is produced — while a fault-free callback completes
step 4: the play cursor advances by one cell and an output frame is
returned. -/
theorem playback_priority_amended (s : BufState) (adc dac : List ℤ) :
    ((record_IO_and_play s adc dac false).1.played_chunk_number =
        s.played_chunk_number ∧
      (record_IO_and_play s adc dac false).2 = .error Fault.sendFault) ∧
    ((record_IO_and_play s adc dac true).1.played_chunk_number =
        (s.played_chunk_number + 1).emod s.cells_in_buffer ∧
      ∃ out, (record_IO_and_play s adc dac true).2 = .ok out) := by
  rw [record_IO_and_play_eq s adc dac false, record_IO_and_play_eq s adc dac true]
  refine ⟨⟨rfl, rfl⟩, ⟨rfl, ⟨_, rfl⟩⟩⟩

/-- Modelled from the spec: the fill ratio is applied by copying the
first `round(frame_count × r)` samples.  Round half up, in the
hundredths representation; the counterexample below does not sit on a
tie, so the tie-breaking convention is immaterial there. -/
def roundHundredths (frames speed : ℕ) : ℕ :=
  (frames * speed + 50) / 100

/-- Modelled from the spec (§4.3): the Playback Driver copies the first
`round(frame_count × r)` samples of the due chunk, clamped to at most
`frame_count`, and zero-fills any remaining output samples. -/
def play_chunk_spec_round (s : BufState) (dac chunk : List ℤ) :
    BufState × List ℤ :=
  let s' := { s with
    played_chunk_number := (s.played_chunk_number + 1).emod s.cells_in_buffer }
  let adjusted := min (roundHundredths s.frames_per_chunk s.playback_speed)
    s.frames_per_chunk
  let dac1 := sliceAssign dac chunk adjusted
  let dac2 := if adjusted < s.frames_per_chunk then zeroFrom dac1 adjusted else dac1
  (s', dac2)

/-- A state with occupancy `(3 - 0) % 14 = 3`, below
`chunks_to_buffer - 2 = 5`, so the controller selects the 0.95 row. -/
def fillRatioCxState : BufState :=
  { chunks_to_buffer := 7
    cells_in_buffer := 14
    frames_per_chunk := 2
    chunk_number := 3
    played_chunk_number := 0
    playback_speed := 100
    ring := List.replicate 14 []
    last_received_seq := none }

/-- C6 counterexample: with `frames_per_chunk = 2` and the controller
ratio 0.95 (occupancy 3), `play_chunk` copies
`int(2 × 0.95) = int(1.9) = 1` sample and zero-fills the second, while
the spec's `round(2 × 0.95) = 2` would copy both samples of the due
chunk.  (At this input binary floating point gives `int(...) = 1` and
`round(...) = 2` as well, so the decimal idealization does not affect
the disagreement.) -/
theorem fill_ratio_cx :
    (adjust_playback_speed fillRatioCxState).playback_speed = 95 ∧
    (play_chunk (adjust_playback_speed fillRatioCxState) [7, 7] [5, 6]).2
      = [5, 0] ∧
    (play_chunk_spec_round (adjust_playback_speed fillRatioCxState) [7, 7] [5, 6]).2
      = [5, 6] ∧
    ([5, 0] : List ℤ) ≠ [5, 6] := by decide

/-- C6 amended: for every due chunk and output frame of the configured
size, `play_chunk` copies exactly the first
`int(frame_count × r)` samples — truncation, not rounding, with the
arithmetic idealized as exact decimal — clamped to at most
`frame_count`, zero-fills every remaining output sample, always emits
exactly `frame_count` samples, and advances the play cursor by one
cell. -/
lemma sliceAssign_zeroFrom_spec (a n : ℕ) (dac chunk : List ℤ)
    (hd : dac.length = n) (hcl : chunk.length = n) :
    (if a < n then zeroFrom (sliceAssign dac chunk a) a
      else sliceAssign dac chunk a) =
      chunk.take (min a n) ++ List.replicate (n - min a n) 0 := by
  by_cases h : a < n
  · rw [if_pos h, min_eq_left (le_of_lt h)]
    have hma : min a dac.length = a := by rw [hd]; exact min_eq_left (le_of_lt h)
    have h1 : (chunk.take a).length = a := by
      rw [List.length_take]; rw [hcl]; exact min_eq_left (le_of_lt h)
    rw [zeroFrom, sliceAssign, hma]
    have h2 : (chunk.take a ++ dac.drop a).take a = chunk.take a :=
      List.take_left' h1
    have h3 : (chunk.take a ++ dac.drop a).length = n := by
      rw [List.length_append, List.length_take, List.length_drop, hcl, hd]
      omega
    rw [h2, h3]
  · rw [if_neg h, min_eq_right (by omega)]
    rw [sliceAssign, hd]
    have hma : min a n = n := min_eq_right (by omega)
    rw [hma]
    have h2 : dac.drop n = [] := by rw [← hd]; exact List.drop_length dac
    rw [h2, Nat.sub_self, List.replicate_zero]

theorem fill_ratio_amended (s : BufState) (dac chunk : List ℤ)
    (hd : dac.length = s.frames_per_chunk)
    (hcl : chunk.length = s.frames_per_chunk) :
    (play_chunk s dac chunk).2 =
      chunk.take (min (s.frames_per_chunk * s.playback_speed / 100)
          s.frames_per_chunk) ++
        List.replicate (s.frames_per_chunk -
          min (s.frames_per_chunk * s.playback_speed / 100) s.frames_per_chunk)
          0 ∧
    (play_chunk s dac chunk).2.length = s.frames_per_chunk ∧
    (play_chunk s dac chunk).1.played_chunk_number =
      (s.played_chunk_number + 1).emod s.cells_in_buffer := by
  have hmain : (play_chunk s dac chunk).2 =
      chunk.take (min (s.frames_per_chunk * s.playback_speed / 100)
          s.frames_per_chunk) ++
        List.replicate (s.frames_per_chunk -
          min (s.frames_per_chunk * s.playback_speed / 100) s.frames_per_chunk)
          0 := by
    show (if s.frames_per_chunk * s.playback_speed / 100 < s.frames_per_chunk
        then zeroFrom (sliceAssign dac chunk
          (s.frames_per_chunk * s.playback_speed / 100))
          (s.frames_per_chunk * s.playback_speed / 100)
        else sliceAssign dac chunk
          (s.frames_per_chunk * s.playback_speed / 100)) = _
    exact sliceAssign_zeroFrom_spec _ _ dac chunk hd hcl
  refine ⟨hmain, ?_, rfl⟩
  rw [hmain, List.length_append, List.length_take, List.length_replicate, hcl]
  omega

/-- Witness for C6's amended statement at the configuration
`frames_per_chunk = 2`, normal speed. -/
theorem fill_ratio_amended_witness :
    (([7, 7] : List ℤ).length = (initState 5 [] 2).frames_per_chunk ∧
      ([5, 6] : List ℤ).length = (initState 5 [] 2).frames_per_chunk) ∧
    ((play_chunk (initState 5 [] 2) [7, 7] [5, 6]).2 =
      ([5, 6] : List ℤ).take (min ((initState 5 [] 2).frames_per_chunk *
          (initState 5 [] 2).playback_speed / 100)
          (initState 5 [] 2).frames_per_chunk) ++
        List.replicate ((initState 5 [] 2).frames_per_chunk -
          min ((initState 5 [] 2).frames_per_chunk *
            (initState 5 [] 2).playback_speed / 100)
          (initState 5 [] 2).frames_per_chunk) 0 ∧
      (play_chunk (initState 5 [] 2) [7, 7] [5, 6]).2.length =
        (initState 5 [] 2).frames_per_chunk ∧
      (play_chunk (initState 5 [] 2) [7, 7] [5, 6]).1.played_chunk_number =
        ((initState 5 [] 2).played_chunk_number + 1).emod
          (initState 5 [] 2).cells_in_buffer) :=
  ⟨⟨by decide, by decide⟩,
    fill_ratio_amended (initState 5 [] 2) [7, 7] [5, 6] (by decide) (by decide)⟩

end InterCom
